import Mathlib

/-!
# flow-txn-helper: account resolution and the seal-wait poller

A shallow embedding of `flowtxnhelper.go` and `main.go`.

* Go pointers are `Option` values (`none` is `nil`).
* A Go `error` is `Option GoError` (`none` is `nil`).
* A call into the SDK either returns its `(value, err)` pair or panics.
* The remote network is an explicit state `σ` threaded through every client call.
* Observable effects (client calls, sleeps, output) are appended to a trace.
* The unbounded `for` loop of `WaitForSeal` takes a fuel argument counting
  evaluations of the loop condition; when it runs out the run is reported as
  still `running` at the loop head.
-/

namespace FlowSDK

/-- Go `error` values; only identity matters here. -/
structure GoError where
  msg : String
  deriving DecidableEq, Repr

/-- The values a goroutine can panic with in this program. -/
inductive PanicValue where
  /-- Raised by `panic(err)` in `HandleError`. -/
  | error (e : GoError)
  /-- Runtime error: nil pointer dereference. -/
  | nilDereference
  /-- Runtime error: `index out of range [index] with length length`. -/
  | indexOutOfRange (index length : Nat)
  deriving DecidableEq, Repr

/-- Result of calling a Go function of type `(*α, error)`: either both results, or a panic. -/
inductive Call (α : Type) where
  | returns (value : Option α) (err : Option GoError)
  | panics (p : PanicValue)
  deriving DecidableEq, Repr

/-- The type `context.Context`, reduced to an identity and its cancellation flag. -/
structure Context where
  key : Nat
  cancelled : Bool
  deriving DecidableEq, Repr

/-- The value `context.Background()`: never cancelled. -/
def Background : Context := ⟨0, false⟩

/-- The type `flow.Identifier`: a fixed-size content hash. -/
structure Identifier where
  bytes : List Nat
  deriving DecidableEq, Repr

/-- The type `flow.Address`. -/
structure Address where
  bytes : List Nat
  deriving DecidableEq, Repr

/-- The type `flow.TransactionStatus`. -/
inductive TransactionStatus where
  | Unknown | Pending | Finalized | Executed | Sealed | Expired
  deriving DecidableEq, Repr

/-- The type `flow.TransactionResult`, with the two fields the source reads
(`txr.Status`, `txr.Error`). -/
structure TransactionResult where
  Status : TransactionStatus
  Error : Option GoError
  deriving DecidableEq, Repr

/-- The type `crypto.SignatureAlgorithm`. -/
inductive SignatureAlgorithm where
  | UnknownSignatureAlgorithm | ECDSA_P256 | ECDSA_secp256k1
  deriving DecidableEq, Repr

/-- The type `crypto.HashAlgorithm`. -/
inductive HashAlgorithm where
  | UnknownHashAlgorithm | SHA2_256 | SHA3_256
  deriving DecidableEq, Repr

/-- The type `crypto.PrivateKey`, an interface value whose contents the helper never inspects. -/
structure PrivateKey where
  raw : List Nat
  deriving DecidableEq, Repr

/-- The type `crypto.Signer`, an interface value whose contents the helper never inspects. -/
structure Signer where
  tag : Nat
  deriving DecidableEq, Repr

/-- The type `flow.AccountKey`, with the fields the source touches. -/
structure AccountKey where
  Index : Nat
  HashAlgo : HashAlgorithm
  Weight : Int
  deriving DecidableEq, Repr

/-- The type `flow.Account`; `Keys` is a slice of pointers (`[]*AccountKey`). -/
structure Account where
  Address : Address
  Keys : List (Option AccountKey)
  deriving DecidableEq, Repr

/-- The constant `time.Second`, a `time.Duration` counted in nanoseconds. -/
def Second : Nat := 1000000000

/-- The hosts `grpc.EmulatorHost`, `grpc.TestnetHost`, `grpc.MainnetHost`. -/
inductive Host where
  | EmulatorHost | TestnetHost | MainnetHost
  deriving DecidableEq, Repr

/-- A value of type `*grpc.Client`; `nil` is a legal value of the type. -/
structure GrpcClient where
  handle : Option Nat
  deriving DecidableEq, Repr

/-- Observable effects of the helper functions, in program order. -/
inductive Event where
  /-- Call `c.GetTransactionResult(ctx, id)`. -/
  | GetTransactionResult (ctx : Context) (id : Identifier)
  /-- Call `flowClient.GetAccount(ctx, addr)`. -/
  | GetAccount (ctx : Context) (addr : Address)
  /-- Call `log.Printf(format, id)`. -/
  | logPrintf (format : String) (id : Identifier)
  /-- Call `time.Sleep(d)`. -/
  | timeSleep (d : Nat)
  /-- Call `fmt.Print(s)`. -/
  | fmtPrint (s : String)
  /-- Call `fmt.Println()`. -/
  | fmtPrintln
  /-- Call `fmt.Printf(format, id)`. -/
  | fmtPrintf (format : String) (id : Identifier)
  deriving DecidableEq, Repr

/-- The methods of `access.Client` used by the helper, over a network state `σ`. -/
structure Client (σ : Type) where
  GetTransactionResult : σ → Context → Identifier → Call TransactionResult × σ
  GetAccount : σ → Context → Address → Call Account × σ

/-- The SDK functions the helper calls; they live outside this repository. -/
structure SDK (σ : Type) where
  DecodePrivateKeyHex : SignatureAlgorithm → String → PrivateKey × Option GoError
  HexToAddress : String → Address
  NewInMemorySigner : PrivateKey → HashAlgorithm → Signer × Option GoError
  NewClient : Host → σ → (GrpcClient × Option GoError) × σ
  /-- The method set of a `*grpc.Client` viewed as an `access.Client`. -/
  asClient : GrpcClient → Client σ

/-- How a run of a function stands: returned, panicked, or still in its loop. -/
inductive Outcome (α : Type) where
  | returned (v : α)
  | panicked (p : PanicValue)
  | running
  deriving DecidableEq, Repr

/-- A run: the effects so far, the network state, and where the function stands. -/
structure Run (σ α : Type) where
  trace : List Event
  state : σ
  outcome : Outcome α

end FlowSDK

open FlowSDK

/-! ## Package `flowtxnhelper` (flowtxnhelper.go) -/

namespace flowtxnhelper

/-- `HandleError`: `some p` when the call panics with `p`, `none` when it returns. -/
def HandleError (err : Option GoError) : Option PanicValue :=
  match err with
  | some e => some (PanicValue.error e)
  | none => none

/-- `Account(flowClient, key, address)`. -/
def Account {σ : Type} (sdk : SDK σ) (flowClient : Client σ) (key : String) (address : String)
    (s : σ) : Run σ (Address × Option AccountKey × Signer) :=
  match sdk.DecodePrivateKeyHex SignatureAlgorithm.ECDSA_P256 key with
  | (privateKey, err) =>
    match HandleError err with
    | some p => ⟨[], s, Outcome.panicked p⟩
    | none =>
      let addr := sdk.HexToAddress address
      let tr := [Event.GetAccount Background addr]
      match flowClient.GetAccount s Background addr with
      | (Call.panics p, s) => ⟨tr, s, Outcome.panicked p⟩
      | (Call.returns acc err, s) =>
        match HandleError err with
        | some p => ⟨tr, s, Outcome.panicked p⟩
        | none =>
          match acc with
          | none => ⟨tr, s, Outcome.panicked PanicValue.nilDereference⟩
          | some acc =>
            match acc.Keys with
            | [] => ⟨tr, s, Outcome.panicked (PanicValue.indexOutOfRange 0 0)⟩
            | accountKey :: _ =>
              match accountKey with
              | none => ⟨tr, s, Outcome.panicked PanicValue.nilDereference⟩
              | some k =>
                match sdk.NewInMemorySigner privateKey k.HashAlgo with
                | (signer, err) =>
                  match HandleError err with
                  | some p => ⟨tr, s, Outcome.panicked p⟩
                  | none => ⟨tr, s, Outcome.returned (addr, accountKey, signer)⟩

/-- `NewTestnetFlowGRPCClient()`. -/
def NewTestnetFlowGRPCClient {σ : Type} (sdk : SDK σ) (s : σ) :
    (GrpcClient × Option GoError) × σ :=
  sdk.NewClient Host.TestnetHost s

/-- `NewMainnetFlowGRPCClient()`. -/
def NewMainnetFlowGRPCClient {σ : Type} (sdk : SDK σ) (s : σ) :
    (GrpcClient × Option GoError) × σ :=
  sdk.NewClient Host.MainnetHost s

/-- `NewTestnetClient(key, address)`. -/
def NewTestnetClient {σ : Type} (sdk : SDK σ) (key : String) (address : String) (s : σ) :
    Run σ (GrpcClient × Address × Option AccountKey × Signer × Option GoError) :=
  match NewTestnetFlowGRPCClient sdk s with
  | ((c, err), s) =>
    match Account sdk (sdk.asClient c) key address s with
    | ⟨tr, s, Outcome.returned (addr, accountKey, signer)⟩ =>
      ⟨tr, s, Outcome.returned (c, addr, accountKey, signer, err)⟩
    | ⟨tr, s, Outcome.panicked p⟩ => ⟨tr, s, Outcome.panicked p⟩
    | ⟨tr, s, Outcome.running⟩ => ⟨tr, s, Outcome.running⟩

/-- `NewMainnetClient(key, address)`. -/
def NewMainnetClient {σ : Type} (sdk : SDK σ) (key : String) (address : String) (s : σ) :
    Run σ (GrpcClient × Address × Option AccountKey × Signer × Option GoError) :=
  match NewMainnetFlowGRPCClient sdk s with
  | ((c, err), s) =>
    match Account sdk (sdk.asClient c) key address s with
    | ⟨tr, s, Outcome.returned (addr, accountKey, signer)⟩ =>
      ⟨tr, s, Outcome.returned (c, addr, accountKey, signer, err)⟩
    | ⟨tr, s, Outcome.panicked p⟩ => ⟨tr, s, Outcome.panicked p⟩
    | ⟨tr, s, Outcome.running⟩ => ⟨tr, s, Outcome.running⟩

/-- The `for result.Status != flow.TransactionStatusSealed` loop of `WaitForSeal` and the
statements after it. `fuel` bounds the number of evaluations of the loop condition. -/
def WaitForSeal.loop {σ : Type} (c : Client σ) (ctx : Context) (id : Identifier) :
    Nat → σ → Option TransactionResult → List Event → Run σ (Option TransactionResult)
  | 0, s, _, tr => ⟨tr, s, Outcome.running⟩
  | _ + 1, s, none, tr => ⟨tr, s, Outcome.panicked PanicValue.nilDereference⟩
  | fuel + 1, s, some result, tr =>
    if result.Status ≠ TransactionStatus.Sealed then
      let tr := tr ++ [Event.timeSleep Second, Event.fmtPrint ".",
        Event.GetTransactionResult ctx id]
      match c.GetTransactionResult s ctx id with
      | (Call.panics p, s) => ⟨tr, s, Outcome.panicked p⟩
      | (Call.returns result err, s) =>
        match HandleError err with
        | some p => ⟨tr, s, Outcome.panicked p⟩
        | none => WaitForSeal.loop c ctx id fuel s result tr
    else
      ⟨tr ++ [Event.fmtPrintln, Event.fmtPrintf "Transaction %s sealed\n" id], s,
        Outcome.returned (some result)⟩

/-- `WaitForSeal(ctx, c, id)`. -/
def WaitForSeal {σ : Type} (c : Client σ) (ctx : Context) (id : Identifier) (fuel : Nat)
    (s : σ) : Run σ (Option TransactionResult) :=
  let tr := [Event.GetTransactionResult ctx id]
  match c.GetTransactionResult s ctx id with
  | (Call.panics p, s) => ⟨tr, s, Outcome.panicked p⟩
  | (Call.returns result err, s) =>
    match HandleError err with
    | some p => ⟨tr, s, Outcome.panicked p⟩
    | none =>
      WaitForSeal.loop c ctx id fuel s result
        (tr ++ [Event.logPrintf "Waiting for transaction %s to be sealed...\n" id])

end flowtxnhelper

/-! ## Package `main` (main.go) -/

namespace main

/-- The anonymous struct type of `config.Accounts.Service` (JSON key `testnet-admin`). -/
structure configService where
  Address : String
  Key : String
  deriving DecidableEq, Repr

/-- The anonymous struct type of `config.Accounts`. -/
structure configAccounts where
  Service : configService
  deriving DecidableEq, Repr

/-- The type `config`; the package-level variable `conf` is passed explicitly. -/
structure config where
  Accounts : configAccounts
  Contracts : List (String × String)
  deriving DecidableEq, Repr

/-- `HandleError`: `some p` when the call panics with `p`, `none` when it returns. -/
def HandleError (err : Option GoError) : Option PanicValue :=
  match err with
  | some e => some (PanicValue.error e)
  | none => none

/-- `Account(flowClient)`, reading key and address from the global `conf`. -/
def Account {σ : Type} (sdk : SDK σ) (conf : config) (flowClient : Client σ)
    (s : σ) : Run σ (Address × Option AccountKey × Signer) :=
  match sdk.DecodePrivateKeyHex SignatureAlgorithm.ECDSA_P256 conf.Accounts.Service.Key with
  | (privateKey, err) =>
    match HandleError err with
    | some p => ⟨[], s, Outcome.panicked p⟩
    | none =>
      let addr := sdk.HexToAddress conf.Accounts.Service.Address
      let tr := [Event.GetAccount Background addr]
      match flowClient.GetAccount s Background addr with
      | (Call.panics p, s) => ⟨tr, s, Outcome.panicked p⟩
      | (Call.returns acc err, s) =>
        match HandleError err with
        | some p => ⟨tr, s, Outcome.panicked p⟩
        | none =>
          match acc with
          | none => ⟨tr, s, Outcome.panicked PanicValue.nilDereference⟩
          | some acc =>
            match acc.Keys with
            | [] => ⟨tr, s, Outcome.panicked (PanicValue.indexOutOfRange 0 0)⟩
            | accountKey :: _ =>
              match accountKey with
              | none => ⟨tr, s, Outcome.panicked PanicValue.nilDereference⟩
              | some k =>
                match sdk.NewInMemorySigner privateKey k.HashAlgo with
                | (signer, err) =>
                  match HandleError err with
                  | some p => ⟨tr, s, Outcome.panicked p⟩
                  | none => ⟨tr, s, Outcome.returned (addr, accountKey, signer)⟩

/-- The `for result.Status != flow.TransactionStatusSealed` loop of `WaitForSeal` and the
statements after it. `fuel` bounds the number of evaluations of the loop condition. -/
def WaitForSeal.loop {σ : Type} (c : Client σ) (ctx : Context) (id : Identifier) :
    Nat → σ → Option TransactionResult → List Event → Run σ (Option TransactionResult)
  | 0, s, _, tr => ⟨tr, s, Outcome.running⟩
  | _ + 1, s, none, tr => ⟨tr, s, Outcome.panicked PanicValue.nilDereference⟩
  | fuel + 1, s, some result, tr =>
    if result.Status ≠ TransactionStatus.Sealed then
      let tr := tr ++ [Event.timeSleep Second, Event.fmtPrint ".",
        Event.GetTransactionResult ctx id]
      match c.GetTransactionResult s ctx id with
      | (Call.panics p, s) => ⟨tr, s, Outcome.panicked p⟩
      | (Call.returns result err, s) =>
        match HandleError err with
        | some p => ⟨tr, s, Outcome.panicked p⟩
        | none => WaitForSeal.loop c ctx id fuel s result tr
    else
      ⟨tr ++ [Event.fmtPrintln, Event.fmtPrintf "Transaction %s sealed\n" id], s,
        Outcome.returned (some result)⟩

/-- `WaitForSeal(ctx, c, id)`. -/
def WaitForSeal {σ : Type} (c : Client σ) (ctx : Context) (id : Identifier) (fuel : Nat)
    (s : σ) : Run σ (Option TransactionResult) :=
  let tr := [Event.GetTransactionResult ctx id]
  match c.GetTransactionResult s ctx id with
  | (Call.panics p, s) => ⟨tr, s, Outcome.panicked p⟩
  | (Call.returns result err, s) =>
    match HandleError err with
    | some p => ⟨tr, s, Outcome.panicked p⟩
    | none =>
      WaitForSeal.loop c ctx id fuel s result
        (tr ++ [Event.logPrintf "Waiting for transaction %s to be sealed...\n" id])

end main

/-! ## Vocabulary for stating properties of runs -/

namespace Poller

/-- The response a client in state `s` gives to the `n`-th (from 0) of a series of
`GetTransactionResult(ctx, id)` calls. -/
def response {σ : Type} (c : Client σ) (ctx : Context) (id : Identifier) :
    σ → Nat → Call TransactionResult
  | s, 0 => (c.GetTransactionResult s ctx id).1
  | s, n + 1 => response c ctx id (c.GetTransactionResult s ctx id).2 n

/-- The network state after `n` calls `GetTransactionResult(ctx, id)` from state `s`. -/
def stateAfter {σ : Type} (c : Client σ) (ctx : Context) (id : Identifier) :
    σ → Nat → σ
  | s, 0 => s
  | s, n + 1 => stateAfter c ctx id (c.GetTransactionResult s ctx id).2 n

/-- A fetch that succeeds (nil error, non-nil result) with a status other than `Sealed`. -/
def isPending : Call TransactionResult → Bool
  | Call.returns (some r) none => decide (r.Status ≠ TransactionStatus.Sealed)
  | _ => false

/-- One pass through the loop body: sleep one second, print the marker, re-fetch. -/
def cycle (ctx : Context) (id : Identifier) : List Event :=
  [Event.timeSleep Second, Event.fmtPrint ".", Event.GetTransactionResult ctx id]

/-- The effects of `n` consecutive passes through the loop body. -/
def cycles (ctx : Context) (id : Identifier) : Nat → List Event
  | 0 => []
  | n + 1 => cycle ctx id ++ cycles ctx id n

/-- The one-time notice `log.Printf("Waiting for transaction %s to be sealed...\n", id)`. -/
def waitingNotice (id : Identifier) : Event :=
  Event.logPrintf "Waiting for transaction %s to be sealed...\n" id

/-- The completion notice `fmt.Printf("Transaction %s sealed\n", id)`. -/
def completionNotice (id : Identifier) : Event :=
  Event.fmtPrintf "Transaction %s sealed\n" id

/-- Number of `GetTransactionResult` calls in a trace. -/
def fetches (tr : List Event) : Nat :=
  tr.countP fun e => match e with
    | Event.GetTransactionResult _ _ => true
    | _ => false

/-- Number of `time.Sleep` calls in a trace. -/
def sleeps (tr : List Event) : Nat :=
  tr.countP fun e => match e with
    | Event.timeSleep _ => true
    | _ => false

/-- Number of `fmt.Print` calls (progress markers) in a trace. -/
def markers (tr : List Event) : Nat :=
  tr.countP fun e => match e with
    | Event.fmtPrint _ => true
    | _ => false

/-- Number of `log.Printf` calls (waiting notices) in a trace. -/
def notices (tr : List Event) : Nat :=
  tr.countP fun e => match e with
    | Event.logPrintf _ _ => true
    | _ => false

/-- Number of `fmt.Printf` calls (completion notices) in a trace. -/
def completions (tr : List Event) : Nat :=
  tr.countP fun e => match e with
    | Event.fmtPrintf _ _ => true
    | _ => false

/-- The same event with every context argument replaced by `ctx`. -/
def withContext (ctx : Context) : Event → Event
  | Event.GetTransactionResult _ id => Event.GetTransactionResult ctx id
  | Event.GetAccount _ addr => Event.GetAccount ctx addr
  | e => e

/-- A test double for the client: the `n`-th `GetTransactionResult` call answers with the
`n`-th entry of `rs` and panics once the script is exhausted. The state counts calls. -/
def stub (rs : List (Call TransactionResult)) : Client Nat where
  GetTransactionResult := fun n _ _ => (rs.getD n (Call.panics PanicValue.nilDereference), n + 1)
  GetAccount := fun n _ _ => (Call.returns none none, n)

/-- A test double that answers every `GetTransactionResult` call with the same response. -/
def always (r : Call TransactionResult) : Client Unit where
  GetTransactionResult := fun _ _ _ => (r, ())
  GetAccount := fun _ _ _ => (Call.returns none none, ())

/-- A client that forwards every call to `c` and keeps a log of the arguments it actually
receives in `GetTransactionResult` calls. -/
def recording {σ : Type} (c : Client σ) : Client (σ × List (Context × Identifier)) where
  GetTransactionResult := fun st ctx id =>
    ((c.GetTransactionResult st.1 ctx id).1,
      ((c.GetTransactionResult st.1 ctx id).2, st.2 ++ [(ctx, id)]))
  GetAccount := fun st ctx addr =>
    ((c.GetAccount st.1 ctx addr).1, ((c.GetAccount st.1 ctx addr).2, st.2))

/-- A successful fetch of a result with the given status. -/
def ok (st : TransactionStatus) : Call TransactionResult :=
  Call.returns (some ⟨st, none⟩) none

/-- The identifiers passed to `GetTransactionResult`, in call order. -/
def fetchedIds : List Event → List Identifier
  | [] => []
  | Event.GetTransactionResult _ id :: tr => id :: fetchedIds tr
  | _ :: tr => fetchedIds tr

/-- The contexts passed to `GetTransactionResult`, in call order. -/
def fetchedContexts : List Event → List Context
  | [] => []
  | Event.GetTransactionResult ctx _ :: tr => ctx :: fetchedContexts tr
  | _ :: tr => fetchedContexts tr

/-- The events the loop of `WaitForSeal(ctx, c, id)` and the statements after it can emit. -/
def loopEvent (ctx : Context) (id : Identifier) (e : Event) : Prop :=
  e = Event.timeSleep Second ∨ e = Event.fmtPrint "." ∨ e = Event.GetTransactionResult ctx id ∨
    e = Event.fmtPrintln ∨ e = completionNotice id

instance (ctx : Context) (id : Identifier) (e : Event) : Decidable (loopEvent ctx id e) := by
  unfold loopEvent
  infer_instance

/-- An account with a single key hashing with SHA3-256, used to exercise `Account`. -/
def demoAccount : Account :=
  ⟨⟨[1]⟩, [some ⟨0, HashAlgorithm.SHA3_256, 1000⟩]⟩

/-- A test double for the access client used by `Account`: address `[1]` resolves to
`demoAccount`, address `[2]` to an account without keys, anything else is not found. -/
def demoClient : Client Nat where
  GetTransactionResult := fun n _ _ => (Call.returns none (some ⟨"not found"⟩), n + 1)
  GetAccount := fun n _ addr =>
    if addr.bytes = [1] then (Call.returns (some demoAccount) none, n + 1)
    else if addr.bytes = [2] then (Call.returns (some ⟨⟨[2]⟩, []⟩) none, n + 1)
    else (Call.returns none (some ⟨"account not found"⟩), n + 1)

/-- A test double for the SDK: keys decode unless empty, addresses are their length,
the testnet dial fails yet hands back a usable client, the mainnet dial succeeds. -/
def demoSDK : SDK Nat where
  DecodePrivateKeyHex := fun _ key =>
    if key.length = 0 then (⟨[]⟩, some ⟨"invalid key"⟩) else (⟨[key.length]⟩, none)
  HexToAddress := fun a => ⟨[a.length]⟩
  NewInMemorySigner := fun pk h =>
    if h = HashAlgorithm.UnknownHashAlgorithm then (⟨0⟩, some ⟨"invalid hash"⟩)
    else (⟨pk.raw.length + 1⟩, none)
  NewClient := fun h n =>
    match h with
    | Host.TestnetHost => ((⟨some 7⟩, some ⟨"dial failed"⟩), n)
    | _ => ((⟨some 8⟩, none), n)
  asClient := fun _ => demoClient

end Poller

open Poller

/-! ## Auxiliary lemmas -/

section Lemmas

variable {σ : Type}

theorem isPending_iff (x : Call TransactionResult) :
    isPending x = true ↔
      ∃ r, x = Call.returns (some r) none ∧ r.Status ≠ TransactionStatus.Sealed := by
  constructor
  · intro h
    match x, h with
    | Call.returns (some r) none, h =>
      exact ⟨r, rfl, by simpa [isPending] using h⟩
  · rintro ⟨r, rfl, hr⟩
    simpa [isPending] using hr

theorem response_succ (c : Client σ) (ctx : Context) (id : Identifier) (s : σ) (n : Nat) :
    response c ctx id s (n + 1) = response c ctx id (c.GetTransactionResult s ctx id).2 n :=
  rfl

theorem response_add (c : Client σ) (ctx : Context) (id : Identifier) (k : Nat) :
    ∀ (s : σ) (j : Nat),
      response c ctx id s (k + j) = response c ctx id (stateAfter c ctx id s k) j := by
  induction k with
  | zero => intro s j; simp [stateAfter]
  | succ k ih =>
    intro s j
    have e : k + 1 + j = (k + j) + 1 := by omega
    rw [e, response_succ, ih]
    rfl

theorem stateAfter_succ_last (c : Client σ) (ctx : Context) (id : Identifier) (k : Nat) :
    ∀ s : σ, stateAfter c ctx id s (k + 1) =
      (c.GetTransactionResult (stateAfter c ctx id s k) ctx id).2 := by
  induction k with
  | zero => intro s; rfl
  | succ k ih => intro s; exact ih _

theorem response_eq_at (c : Client σ) (ctx : Context) (id : Identifier) (s : σ) (k : Nat) :
    response c ctx id s k = (c.GetTransactionResult (stateAfter c ctx id s k) ctx id).1 := by
  have := response_add c ctx id k s 0
  simpa using this

theorem cycles_succ_last (ctx : Context) (id : Identifier) (n : Nat) :
    cycles ctx id (n + 1) = cycles ctx id n ++ cycle ctx id := by
  induction n with
  | zero => simp [cycles]
  | succ n ih =>
    calc cycles ctx id (n + 1 + 1)
        = cycle ctx id ++ cycles ctx id (n + 1) := rfl
      _ = cycle ctx id ++ (cycles ctx id n ++ cycle ctx id) := by rw [ih]
      _ = cycles ctx id (n + 1) ++ cycle ctx id := by
          rw [← List.append_assoc]; rfl

theorem fetches_append (a b : List Event) : fetches (a ++ b) = fetches a + fetches b := by
  simp [fetches]

theorem sleeps_append (a b : List Event) : sleeps (a ++ b) = sleeps a + sleeps b := by
  simp [sleeps]

theorem markers_append (a b : List Event) : markers (a ++ b) = markers a + markers b := by
  simp [markers]

theorem notices_append (a b : List Event) : notices (a ++ b) = notices a + notices b := by
  simp [notices]

theorem completions_append (a b : List Event) :
    completions (a ++ b) = completions a + completions b := by
  simp [completions]

theorem fetches_cycles (ctx : Context) (id : Identifier) (n : Nat) :
    fetches (cycles ctx id n) = n := by
  induction n with
  | zero => rfl
  | succ n ih => rw [cycles, fetches_append, ih]; simp [fetches, cycle]; omega

theorem sleeps_cycles (ctx : Context) (id : Identifier) (n : Nat) :
    sleeps (cycles ctx id n) = n := by
  induction n with
  | zero => rfl
  | succ n ih => rw [cycles, sleeps_append, ih]; simp [sleeps, cycle]; omega

theorem markers_cycles (ctx : Context) (id : Identifier) (n : Nat) :
    markers (cycles ctx id n) = n := by
  induction n with
  | zero => rfl
  | succ n ih => rw [cycles, markers_append, ih]; simp [markers, cycle]; omega

theorem notices_cycles (ctx : Context) (id : Identifier) (n : Nat) :
    notices (cycles ctx id n) = 0 := by
  induction n with
  | zero => rfl
  | succ n ih => rw [cycles, notices_append, ih]; simp [notices, cycle]

theorem completions_cycles (ctx : Context) (id : Identifier) (n : Nat) :
    completions (cycles ctx id n) = 0 := by
  induction n with
  | zero => rfl
  | succ n ih => rw [cycles, completions_append, ih]; simp [completions, cycle]

/-- One pass through the loop body when the current result is not sealed and the re-fetch
succeeds. -/
theorem loop_pass (c : Client σ) (ctx : Context) (id : Identifier) (fuel : Nat) (s s' : σ)
    (r : TransactionResult) (v : Option TransactionResult) (tr : List Event)
    (hr : r.Status ≠ TransactionStatus.Sealed)
    (hc : c.GetTransactionResult s ctx id = (Call.returns v none, s')) :
    flowtxnhelper.WaitForSeal.loop c ctx id (fuel + 1) s (some r) tr =
      flowtxnhelper.WaitForSeal.loop c ctx id fuel s' v (tr ++ cycle ctx id) := by
  simp [flowtxnhelper.WaitForSeal.loop, hr, hc, flowtxnhelper.HandleError, cycle]

/-- A re-fetch that returns an error makes the loop panic with that error. -/
theorem loop_fail (c : Client σ) (ctx : Context) (id : Identifier) (fuel : Nat) (s s' : σ)
    (r : TransactionResult) (v : Option TransactionResult) (e : GoError) (tr : List Event)
    (hr : r.Status ≠ TransactionStatus.Sealed)
    (hc : c.GetTransactionResult s ctx id = (Call.returns v (some e), s')) :
    flowtxnhelper.WaitForSeal.loop c ctx id (fuel + 1) s (some r) tr =
      ⟨tr ++ cycle ctx id, s', Outcome.panicked (PanicValue.error e)⟩ := by
  simp [flowtxnhelper.WaitForSeal.loop, hr, hc, flowtxnhelper.HandleError, cycle]

/-- A sealed result at the loop head ends the loop. -/
theorem loop_sealed (c : Client σ) (ctx : Context) (id : Identifier) (fuel : Nat) (s : σ)
    (r : TransactionResult) (tr : List Event)
    (hr : r.Status = TransactionStatus.Sealed) :
    flowtxnhelper.WaitForSeal.loop c ctx id (fuel + 1) s (some r) tr =
      ⟨tr ++ [Event.fmtPrintln, completionNotice id], s, Outcome.returned (some r)⟩ := by
  simp [flowtxnhelper.WaitForSeal.loop, hr, completionNotice]

/-- While the next `k` re-fetches are pending, the loop makes `k` passes. -/
theorem loop_advance (c : Client σ) (ctx : Context) (id : Identifier) (k : Nat) :
    ∀ (fuel : Nat) (s : σ) (r : TransactionResult) (tr : List Event),
      r.Status ≠ TransactionStatus.Sealed →
      (∀ i, i < k → isPending (response c ctx id s i) = true) →
      ∃ r', r'.Status ≠ TransactionStatus.Sealed ∧
        flowtxnhelper.WaitForSeal.loop c ctx id (fuel + k) s (some r) tr =
          flowtxnhelper.WaitForSeal.loop c ctx id fuel (stateAfter c ctx id s k) (some r')
            (tr ++ cycles ctx id k) := by
  induction k with
  | zero =>
    intro fuel s r tr hr _
    exact ⟨r, hr, by simp [stateAfter, cycles]⟩
  | succ k ih =>
    intro fuel s r tr hr hp
    obtain ⟨r1, h1, hr1⟩ := (isPending_iff _).1 (hp 0 (Nat.succ_pos k))
    have hc : c.GetTransactionResult s ctx id =
        (Call.returns (some r1) none, (c.GetTransactionResult s ctx id).2) :=
      Prod.ext h1 rfl
    have hp' : ∀ i, i < k →
        isPending (response c ctx id (c.GetTransactionResult s ctx id).2 i) = true := by
      intro i hi
      have := hp (i + 1) (Nat.succ_lt_succ hi)
      rwa [response_succ] at this
    obtain ⟨r', hr', hl⟩ := ih fuel _ r1 (tr ++ cycle ctx id) hr1 hp'
    refine ⟨r', hr', ?_⟩
    have e : fuel + (k + 1) = (fuel + k) + 1 := by omega
    rw [e, loop_pass c ctx id (fuel + k) s _ r (some r1) tr hr hc, hl]
    simp [stateAfter, cycles]

end Lemmas

section Lemmas

variable {σ : Type}

/-- After a successful first fetch `WaitForSeal` logs the waiting notice and enters the loop. -/
theorem wait_enter (c : Client σ) (ctx : Context) (id : Identifier) (fuel : Nat) (s s' : σ)
    (v : Option TransactionResult)
    (hc : c.GetTransactionResult s ctx id = (Call.returns v none, s')) :
    flowtxnhelper.WaitForSeal c ctx id fuel s =
      flowtxnhelper.WaitForSeal.loop c ctx id fuel s' v
        [Event.GetTransactionResult ctx id, waitingNotice id] := by
  simp [flowtxnhelper.WaitForSeal, hc, flowtxnhelper.HandleError, waitingNotice]

/-- A first fetch that returns an error makes `WaitForSeal` panic at once. -/
theorem wait_fail (c : Client σ) (ctx : Context) (id : Identifier) (fuel : Nat) (s s' : σ)
    (v : Option TransactionResult) (e : GoError)
    (hc : c.GetTransactionResult s ctx id = (Call.returns v (some e), s')) :
    flowtxnhelper.WaitForSeal c ctx id fuel s =
      ⟨[Event.GetTransactionResult ctx id], s', Outcome.panicked (PanicValue.error e)⟩ := by
  simp [flowtxnhelper.WaitForSeal, hc, flowtxnhelper.HandleError]

theorem call_eq_of_response_zero (c : Client σ) (ctx : Context) (id : Identifier) (s : σ)
    (x : Call TransactionResult) (h : response c ctx id s 0 = x) :
    c.GetTransactionResult s ctx id = (x, stateAfter c ctx id s 1) :=
  Prod.ext h rfl

/-- While the first `n + 1` fetches are pending, a run with fuel `n` is still polling. -/
theorem wait_running (c : Client σ) (ctx : Context) (id : Identifier) (n : Nat) (s : σ)
    (hp : ∀ i, i < n + 1 → isPending (response c ctx id s i) = true) :
    flowtxnhelper.WaitForSeal c ctx id n s =
      ⟨[Event.GetTransactionResult ctx id, waitingNotice id] ++ cycles ctx id n,
        stateAfter c ctx id s (n + 1), Outcome.running⟩ := by
  obtain ⟨r0, h0, hr0⟩ := (isPending_iff _).1 (hp 0 (Nat.succ_pos n))
  have hc := call_eq_of_response_zero c ctx id s _ h0
  have hp' : ∀ i, i < n → isPending (response c ctx id (stateAfter c ctx id s 1) i) = true := by
    intro i hi
    have := hp (i + 1) (Nat.succ_lt_succ hi)
    rwa [response_succ] at this
  obtain ⟨r', _, hl⟩ := loop_advance c ctx id n 0 _ r0
    [Event.GetTransactionResult ctx id, waitingNotice id] hr0 hp'
  rw [wait_enter c ctx id n s _ (some r0) hc]
  rw [Nat.zero_add] at hl
  rw [hl]
  simp [flowtxnhelper.WaitForSeal.loop, stateAfter]

end Lemmas

/-! ## The seal-wait poller -/

/-- C1 (polling convergence): if the first `k` fetches succeed with a status other than
`Sealed` and fetch number `k + 1` succeeds with status `Sealed`, then `WaitForSeal`, given
fuel for its `k + 1` loop tests, returns exactly the result of fetch number `k + 1`; its
trace is the first fetch, the waiting notice, `k` sleep/marker/re-fetch cycles and the
closing output, so it makes `k + 1` fetches, `k` sleeps and prints `k` markers. -/
theorem waitForSeal_polling_convergence {σ : Type} (c : Client σ) (ctx : Context)
    (id : Identifier) (s : σ) (k : Nat) (r : TransactionResult)
    (hpend : ∀ i, i < k → isPending (response c ctx id s i) = true)
    (hlast : response c ctx id s k = Call.returns (some r) none)
    (hsealed : r.Status = TransactionStatus.Sealed)
    (fuel : Nat) (hfuel : k + 1 ≤ fuel) :
    flowtxnhelper.WaitForSeal c ctx id fuel s =
        ⟨[Event.GetTransactionResult ctx id, waitingNotice id] ++ cycles ctx id k ++
            [Event.fmtPrintln, completionNotice id],
          stateAfter c ctx id s (k + 1), Outcome.returned (some r)⟩ ∧
      fetches (flowtxnhelper.WaitForSeal c ctx id fuel s).trace = k + 1 ∧
      sleeps (flowtxnhelper.WaitForSeal c ctx id fuel s).trace = k ∧
      markers (flowtxnhelper.WaitForSeal c ctx id fuel s).trace = k := by
  have heq : flowtxnhelper.WaitForSeal c ctx id fuel s =
      ⟨[Event.GetTransactionResult ctx id, waitingNotice id] ++ cycles ctx id k ++
          [Event.fmtPrintln, completionNotice id],
        stateAfter c ctx id s (k + 1), Outcome.returned (some r)⟩ := by
    cases k with
    | zero =>
      obtain ⟨f, rfl⟩ : ∃ f, fuel = f + 1 := ⟨fuel - 1, by omega⟩
      rw [wait_enter c ctx id _ s _ (some r) (call_eq_of_response_zero c ctx id s _ hlast),
        loop_sealed c ctx id f _ r _ hsealed]
      simp [cycles]
    | succ k =>
      obtain ⟨r0, h0, hr0⟩ := (isPending_iff _).1 (hpend 0 (Nat.succ_pos k))
      have hp' : ∀ i, i < k →
          isPending (response c ctx id (stateAfter c ctx id s 1) i) = true := by
        intro i hi
        have := hpend (i + 1) (Nat.succ_lt_succ hi)
        rwa [response_succ] at this
      obtain ⟨m, rfl⟩ : ∃ m, fuel = (m + 2) + k := ⟨fuel - k - 2, by omega⟩
      obtain ⟨r', hr', hl⟩ := loop_advance c ctx id k (m + 2) _ r0
        [Event.GetTransactionResult ctx id, waitingNotice id] hr0 hp'
      have hnext : c.GetTransactionResult (stateAfter c ctx id (stateAfter c ctx id s 1) k)
          ctx id = (Call.returns (some r) none, stateAfter c ctx id s (k + 1 + 1)) := by
        apply Prod.ext
        · rw [← response_eq_at]
          rw [response_succ] at hlast
          exact hlast
        · exact (stateAfter_succ_last c ctx id k (stateAfter c ctx id s 1)).symm
      rw [wait_enter c ctx id _ s _ (some r0) (call_eq_of_response_zero c ctx id s _ h0), hl,
        loop_pass c ctx id (m + 1) _ _ r' (some r) _ hr' hnext,
        loop_sealed c ctx id m _ r _ hsealed, cycles_succ_last]
      simp
  refine ⟨heq, ?_, ?_, ?_⟩ <;> rw [heq]
  · simp only [fetches_append, fetches_cycles]
    simp [fetches, waitingNotice, completionNotice]
    omega
  · simp only [sleeps_append, sleeps_cycles]
    simp [sleeps, waitingNotice, completionNotice]
  · simp only [markers_append, markers_cycles]
    simp [markers, waitingNotice, completionNotice]

/-- Witness for C1 on the statuses `Pending, Pending, Executed, Sealed`: three cycles, four
fetches, and the fourth fetched value is returned. -/
theorem waitForSeal_polling_convergence_witness :
    flowtxnhelper.WaitForSeal
        (stub [ok TransactionStatus.Pending, ok TransactionStatus.Pending,
          ok TransactionStatus.Executed, ok TransactionStatus.Sealed])
        Background ⟨[7]⟩ 4 0 =
        ⟨[Event.GetTransactionResult Background ⟨[7]⟩, waitingNotice ⟨[7]⟩] ++
            cycles Background ⟨[7]⟩ 3 ++ [Event.fmtPrintln, completionNotice ⟨[7]⟩],
          4, Outcome.returned (some ⟨TransactionStatus.Sealed, none⟩)⟩ ∧
      fetches (flowtxnhelper.WaitForSeal
        (stub [ok TransactionStatus.Pending, ok TransactionStatus.Pending,
          ok TransactionStatus.Executed, ok TransactionStatus.Sealed])
        Background ⟨[7]⟩ 4 0).trace = 4 ∧
      sleeps (flowtxnhelper.WaitForSeal
        (stub [ok TransactionStatus.Pending, ok TransactionStatus.Pending,
          ok TransactionStatus.Executed, ok TransactionStatus.Sealed])
        Background ⟨[7]⟩ 4 0).trace = 3 ∧
      markers (flowtxnhelper.WaitForSeal
        (stub [ok TransactionStatus.Pending, ok TransactionStatus.Pending,
          ok TransactionStatus.Executed, ok TransactionStatus.Sealed])
        Background ⟨[7]⟩ 4 0).trace = 3 :=
  waitForSeal_polling_convergence
    (stub [ok TransactionStatus.Pending, ok TransactionStatus.Pending,
      ok TransactionStatus.Executed, ok TransactionStatus.Sealed])
    Background ⟨[7]⟩ 0 3 ⟨TransactionStatus.Sealed, none⟩ (by decide) rfl rfl 4 (by decide)

/-- C2 (fatal propagation): if the first `k` fetches succeed with a status other than
`Sealed` and fetch number `k + 1` returns the error `e`, then `WaitForSeal`, given fuel for
its `k` loop tests, panics with exactly `e` after `k + 1` fetches and `k` sleeps, without a
completion notice; when `k = 0` the trace is the single first fetch. At no stage of the run
is there a further fetch, a completion notice or a returned result. -/
theorem waitForSeal_fatal_propagation {σ : Type} (c : Client σ) (ctx : Context)
    (id : Identifier) (s : σ) (k : Nat) (v : Option TransactionResult) (e : GoError)
    (hpend : ∀ i, i < k → isPending (response c ctx id s i) = true)
    (herr : response c ctx id s k = Call.returns v (some e))
    (fuel : Nat) (hfuel : k ≤ fuel) :
    flowtxnhelper.WaitForSeal c ctx id fuel s =
        ⟨if k = 0 then [Event.GetTransactionResult ctx id]
          else [Event.GetTransactionResult ctx id, waitingNotice id] ++ cycles ctx id k,
          stateAfter c ctx id s (k + 1), Outcome.panicked (PanicValue.error e)⟩ ∧
      fetches (flowtxnhelper.WaitForSeal c ctx id fuel s).trace = k + 1 ∧
      sleeps (flowtxnhelper.WaitForSeal c ctx id fuel s).trace = k ∧
      ∀ n, fetches (flowtxnhelper.WaitForSeal c ctx id n s).trace ≤ k + 1 ∧
        completions (flowtxnhelper.WaitForSeal c ctx id n s).trace = 0 ∧
        ∀ r, (flowtxnhelper.WaitForSeal c ctx id n s).outcome ≠ Outcome.returned r := by
  have heq : ∀ n, k ≤ n → flowtxnhelper.WaitForSeal c ctx id n s =
      ⟨if k = 0 then [Event.GetTransactionResult ctx id]
        else [Event.GetTransactionResult ctx id, waitingNotice id] ++ cycles ctx id k,
        stateAfter c ctx id s (k + 1), Outcome.panicked (PanicValue.error e)⟩ := by
    intro n hn
    cases k with
    | zero =>
      rw [wait_fail c ctx id _ s _ v e (call_eq_of_response_zero c ctx id s _ herr)]
      simp
    | succ k =>
      obtain ⟨r0, h0, hr0⟩ := (isPending_iff _).1 (hpend 0 (Nat.succ_pos k))
      have hp' : ∀ i, i < k →
          isPending (response c ctx id (stateAfter c ctx id s 1) i) = true := by
        intro i hi
        have := hpend (i + 1) (Nat.succ_lt_succ hi)
        rwa [response_succ] at this
      obtain ⟨m, rfl⟩ : ∃ m, n = (m + 1) + k := ⟨n - k - 1, by omega⟩
      obtain ⟨r', hr', hl⟩ := loop_advance c ctx id k (m + 1) _ r0
        [Event.GetTransactionResult ctx id, waitingNotice id] hr0 hp'
      have hnext : c.GetTransactionResult (stateAfter c ctx id (stateAfter c ctx id s 1) k)
          ctx id = (Call.returns v (some e), stateAfter c ctx id s (k + 1 + 1)) := by
        apply Prod.ext
        · rw [← response_eq_at]
          rw [response_succ] at herr
          exact herr
        · exact (stateAfter_succ_last c ctx id k (stateAfter c ctx id s 1)).symm
      rw [wait_enter c ctx id _ s _ (some r0) (call_eq_of_response_zero c ctx id s _ h0), hl,
        loop_fail c ctx id m _ _ r' v e _ hr' hnext, cycles_succ_last]
      simp
  have hcount : ∀ n, k ≤ n →
      fetches (flowtxnhelper.WaitForSeal c ctx id n s).trace = k + 1 ∧
      sleeps (flowtxnhelper.WaitForSeal c ctx id n s).trace = k ∧
      completions (flowtxnhelper.WaitForSeal c ctx id n s).trace = 0 := by
    intro n hn
    rw [heq n hn]
    by_cases hk : k = 0
    · subst hk
      simp [fetches, sleeps, completions]
    · simp only [hk, if_false, fetches_append, fetches_cycles, sleeps_append, sleeps_cycles,
        completions_append, completions_cycles]
      simp [fetches, sleeps, completions, waitingNotice]
      omega
  refine ⟨heq fuel hfuel, (hcount fuel hfuel).1, (hcount fuel hfuel).2.1, ?_⟩
  intro n
  by_cases hn : k ≤ n
  · refine ⟨le_of_eq (hcount n hn).1, (hcount n hn).2.2, ?_⟩
    intro r
    rw [heq n hn]
    simp
  · have hrun := wait_running c ctx id n s (fun i hi => hpend i (by omega))
    rw [hrun]
    refine ⟨?_, ?_, ?_⟩
    · simp only [fetches_append, fetches_cycles]
      simp [fetches, waitingNotice]
      omega
    · simp only [completions_append, completions_cycles]
      simp [completions, waitingNotice]
    · intro r
      simp

/-- Witness for C2: the second fetch errors, so the run panics with that error after two
fetches and one sleep; the scripted third response is never requested. -/
theorem waitForSeal_fatal_propagation_witness :
    flowtxnhelper.WaitForSeal
        (stub [ok TransactionStatus.Pending, Call.returns none (some ⟨"unavailable"⟩),
          ok TransactionStatus.Sealed])
        Background ⟨[7]⟩ 5 0 =
        ⟨if 1 = 0 then [Event.GetTransactionResult Background ⟨[7]⟩]
          else [Event.GetTransactionResult Background ⟨[7]⟩, waitingNotice ⟨[7]⟩] ++
            cycles Background ⟨[7]⟩ 1,
          2, Outcome.panicked (PanicValue.error ⟨"unavailable"⟩)⟩ ∧
      fetches (flowtxnhelper.WaitForSeal
        (stub [ok TransactionStatus.Pending, Call.returns none (some ⟨"unavailable"⟩),
          ok TransactionStatus.Sealed])
        Background ⟨[7]⟩ 5 0).trace = 2 :=
  have h := waitForSeal_fatal_propagation
    (stub [ok TransactionStatus.Pending, Call.returns none (some ⟨"unavailable"⟩),
      ok TransactionStatus.Sealed])
    Background ⟨[7]⟩ 0 1 none ⟨"unavailable"⟩ (by decide) rfl 5 (by decide)
  ⟨h.1, h.2.1⟩

/-- C3 (immediate terminal return): if the first fetch succeeds with status `Sealed`,
`WaitForSeal` returns that first result after exactly one fetch, with no sleep and no
progress marker. -/
theorem waitForSeal_immediate_return {σ : Type} (c : Client σ) (ctx : Context)
    (id : Identifier) (s : σ) (r : TransactionResult)
    (hfirst : response c ctx id s 0 = Call.returns (some r) none)
    (hsealed : r.Status = TransactionStatus.Sealed)
    (fuel : Nat) (hfuel : 1 ≤ fuel) :
    flowtxnhelper.WaitForSeal c ctx id fuel s =
        ⟨[Event.GetTransactionResult ctx id, waitingNotice id, Event.fmtPrintln,
            completionNotice id],
          stateAfter c ctx id s 1, Outcome.returned (some r)⟩ ∧
      fetches (flowtxnhelper.WaitForSeal c ctx id fuel s).trace = 1 ∧
      sleeps (flowtxnhelper.WaitForSeal c ctx id fuel s).trace = 0 ∧
      markers (flowtxnhelper.WaitForSeal c ctx id fuel s).trace = 0 := by
  obtain ⟨f, rfl⟩ : ∃ f, fuel = f + 1 := ⟨fuel - 1, by omega⟩
  have heq : flowtxnhelper.WaitForSeal c ctx id (f + 1) s =
      ⟨[Event.GetTransactionResult ctx id, waitingNotice id, Event.fmtPrintln,
          completionNotice id],
        stateAfter c ctx id s 1, Outcome.returned (some r)⟩ := by
    rw [wait_enter c ctx id _ s _ (some r) (call_eq_of_response_zero c ctx id s _ hfirst),
      loop_sealed c ctx id f _ r _ hsealed]
    simp
  refine ⟨heq, ?_, ?_, ?_⟩ <;> rw [heq] <;>
    simp [fetches, sleeps, markers, waitingNotice, completionNotice]

/-- Witness for C3 on a client whose every answer is `Sealed`. -/
theorem waitForSeal_immediate_return_witness :
    flowtxnhelper.WaitForSeal (always (ok TransactionStatus.Sealed)) Background ⟨[7]⟩ 3 () =
        ⟨[Event.GetTransactionResult Background ⟨[7]⟩, waitingNotice ⟨[7]⟩, Event.fmtPrintln,
            completionNotice ⟨[7]⟩],
          (), Outcome.returned (some ⟨TransactionStatus.Sealed, none⟩)⟩ ∧
      fetches (flowtxnhelper.WaitForSeal (always (ok TransactionStatus.Sealed))
        Background ⟨[7]⟩ 3 ()).trace = 1 ∧
      sleeps (flowtxnhelper.WaitForSeal (always (ok TransactionStatus.Sealed))
        Background ⟨[7]⟩ 3 ()).trace = 0 ∧
      markers (flowtxnhelper.WaitForSeal (always (ok TransactionStatus.Sealed))
        Background ⟨[7]⟩ 3 ()).trace = 0 :=
  waitForSeal_immediate_return (always (ok TransactionStatus.Sealed)) Background ⟨[7]⟩ ()
    ⟨TransactionStatus.Sealed, none⟩ rfl rfl 3 (by decide)

section Lemmas

variable {σ : Type}

theorem response_always (x : Call TransactionResult) (ctx : Context) (id : Identifier)
    (i : Nat) : response (always x) ctx id () i = x := by
  induction i with
  | zero => rfl
  | succ i ih => rw [response_succ]; exact ih

theorem fetchedIds_append (a b : List Event) :
    fetchedIds (a ++ b) = fetchedIds a ++ fetchedIds b := by
  induction a with
  | nil => rfl
  | cons e a ih => cases e <;> simp [fetchedIds, ih]

theorem fetchedContexts_append (a b : List Event) :
    fetchedContexts (a ++ b) = fetchedContexts a ++ fetchedContexts b := by
  induction a with
  | nil => rfl
  | cons e a ih => cases e <;> simp [fetchedContexts, ih]

/-- What a list of loop events contains: only fetches of `(ctx, id)` and no `log.Printf`. -/
theorem loopEvents_facts (ctx : Context) (id : Identifier) (l : List Event)
    (h : ∀ e, e ∈ l → loopEvent ctx id e) :
    fetchedIds l = List.replicate (fetches l) id ∧
      fetchedContexts l = List.replicate (fetches l) ctx ∧ notices l = 0 := by
  induction l with
  | nil => exact ⟨rfl, rfl, rfl⟩
  | cons e l ih =>
    obtain ⟨h1, h2, h3⟩ := ih (fun x hx => h x (List.mem_cons_of_mem _ hx))
    have he := h e (List.mem_cons_self _ _)
    have hf : ∀ x : Event, fetches (x :: l) = fetches [x] + fetches l :=
      fun x => fetches_append [x] l
    have hn : ∀ x : Event, notices (x :: l) = notices [x] + notices l :=
      fun x => notices_append [x] l
    rcases he with rfl | rfl | rfl | rfl | rfl
    · exact ⟨by rw [hf]; simpa [fetchedIds, fetches] using h1,
        by rw [hf]; simpa [fetchedContexts, fetches] using h2,
        by rw [hn, h3]; simp [notices]⟩
    · exact ⟨by rw [hf]; simpa [fetchedIds, fetches] using h1,
        by rw [hf]; simpa [fetchedContexts, fetches] using h2,
        by rw [hn, h3]; simp [notices]⟩
    · refine ⟨?_, ?_, by rw [hn, h3]; simp [notices]⟩
      · have e1 : fetches [Event.GetTransactionResult ctx id] = 1 := rfl
        rw [hf, fetchedIds, h1, e1, Nat.add_comm, List.replicate_succ]
      · have e1 : fetches [Event.GetTransactionResult ctx id] = 1 := rfl
        rw [hf, fetchedContexts, h2, e1, Nat.add_comm, List.replicate_succ]
    · exact ⟨by rw [hf]; simpa [fetchedIds, fetches] using h1,
        by rw [hf]; simpa [fetchedContexts, fetches] using h2,
        by rw [hn, h3]; simp [notices]⟩
    · exact ⟨by rw [hf]; simpa [fetchedIds, fetches, completionNotice] using h1,
        by rw [hf]; simpa [fetchedContexts, fetches, completionNotice] using h2,
        by rw [hn, h3]; simp [notices, completionNotice]⟩

/-- The loop only appends loop events to the trace it is given. -/
theorem loop_trace (c : Client σ) (ctx : Context) (id : Identifier) (fuel : Nat) :
    ∀ (s : σ) (v : Option TransactionResult) (tr : List Event),
      ∃ rest, (flowtxnhelper.WaitForSeal.loop c ctx id fuel s v tr).trace = tr ++ rest ∧
        ∀ e, e ∈ rest → loopEvent ctx id e := by
  induction fuel with
  | zero =>
    intro s v tr
    exact ⟨[], by simp [flowtxnhelper.WaitForSeal.loop], by simp⟩
  | succ fuel ih =>
    intro s v tr
    cases v with
    | none => exact ⟨[], by simp [flowtxnhelper.WaitForSeal.loop], by simp⟩
    | some r =>
      by_cases hr : r.Status = TransactionStatus.Sealed
      · refine ⟨[Event.fmtPrintln, completionNotice id], ?_, ?_⟩
        · rw [loop_sealed c ctx id fuel s r tr hr]
        · intro e he
          simp at he
          rcases he with rfl | rfl <;> simp [loopEvent, completionNotice]
      · have hcyc : ∀ e, e ∈ cycle ctx id → loopEvent ctx id e := by
          intro e he
          simp [cycle] at he
          rcases he with rfl | rfl | rfl <;> simp [loopEvent]
        rcases hcall : c.GetTransactionResult s ctx id with ⟨x, s'⟩
        cases x with
        | panics p =>
          refine ⟨cycle ctx id, ?_, hcyc⟩
          simp [flowtxnhelper.WaitForSeal.loop, hr, hcall, cycle]
        | returns v' err =>
          cases err with
          | some e =>
            refine ⟨cycle ctx id, ?_, hcyc⟩
            rw [loop_fail c ctx id fuel s s' r v' e tr hr hcall]
          | none =>
            obtain ⟨rest, h1, h2⟩ := ih s' v' (tr ++ cycle ctx id)
            refine ⟨cycle ctx id ++ rest, ?_, ?_⟩
            · rw [loop_pass c ctx id fuel s s' r v' tr hr hcall, h1, List.append_assoc]
            · intro e he
              rcases List.mem_append.1 he with h | h
              · exact hcyc e h
              · exact h2 e h

/-- Every run of `WaitForSeal` starts with the fetch of `(ctx, id)`; if that fetch does not
succeed nothing follows, otherwise the waiting notice and loop events follow. -/
theorem wait_trace (c : Client σ) (ctx : Context) (id : Identifier) (fuel : Nat) (s : σ) :
    (flowtxnhelper.WaitForSeal c ctx id fuel s).trace = [Event.GetTransactionResult ctx id] ∨
      ∃ rest, (flowtxnhelper.WaitForSeal c ctx id fuel s).trace =
          [Event.GetTransactionResult ctx id, waitingNotice id] ++ rest ∧
        ∀ e, e ∈ rest → loopEvent ctx id e := by
  rcases hcall : c.GetTransactionResult s ctx id with ⟨x, s'⟩
  cases x with
  | panics p =>
    left
    simp [flowtxnhelper.WaitForSeal, hcall]
  | returns v err =>
    cases err with
    | some e =>
      left
      rw [wait_fail c ctx id fuel s s' v e hcall]
    | none =>
      right
      rw [wait_enter c ctx id fuel s s' v hcall]
      exact loop_trace c ctx id fuel s' v _

/-- With a client that ignores the context, the loop run under `ctx2` mirrors the one under
`ctx1` step by step. -/
theorem loop_context_irrelevant (c : Client σ) (id : Identifier) (ctx1 ctx2 : Context)
    (hind : ∀ s a b i, c.GetTransactionResult s a i = c.GetTransactionResult s b i)
    (fuel : Nat) :
    ∀ (s : σ) (v : Option TransactionResult) (tr : List Event),
      (flowtxnhelper.WaitForSeal.loop c ctx2 id fuel s v (tr.map (withContext ctx2))).trace =
          (flowtxnhelper.WaitForSeal.loop c ctx1 id fuel s v tr).trace.map (withContext ctx2) ∧
        (flowtxnhelper.WaitForSeal.loop c ctx2 id fuel s v (tr.map (withContext ctx2))).state =
          (flowtxnhelper.WaitForSeal.loop c ctx1 id fuel s v tr).state ∧
        (flowtxnhelper.WaitForSeal.loop c ctx2 id fuel s v (tr.map (withContext ctx2))).outcome =
          (flowtxnhelper.WaitForSeal.loop c ctx1 id fuel s v tr).outcome := by
  induction fuel with
  | zero => intro s v tr; simp [flowtxnhelper.WaitForSeal.loop]
  | succ fuel ih =>
    intro s v tr
    cases v with
    | none => simp [flowtxnhelper.WaitForSeal.loop]
    | some r =>
      by_cases hr : r.Status = TransactionStatus.Sealed
      · rw [loop_sealed c ctx2 id fuel s r _ hr, loop_sealed c ctx1 id fuel s r _ hr]
        simp [withContext, completionNotice]
      · have hmap : (tr ++ cycle ctx1 id).map (withContext ctx2) =
            tr.map (withContext ctx2) ++ cycle ctx2 id := by
          simp [cycle, withContext]
        rcases hcall : c.GetTransactionResult s ctx1 id with ⟨x, s'⟩
        have hcall2 : c.GetTransactionResult s ctx2 id = (x, s') := by
          rw [hind s ctx2 ctx1 id, hcall]
        cases x with
        | panics p =>
          simp [flowtxnhelper.WaitForSeal.loop, hr, hcall, hcall2, withContext]
        | returns v' err =>
          cases err with
          | some e =>
            rw [loop_fail c ctx2 id fuel s s' r v' e _ hr hcall2,
              loop_fail c ctx1 id fuel s s' r v' e _ hr hcall, hmap]
            simp
          | none =>
            rw [loop_pass c ctx2 id fuel s s' r v' _ hr hcall2,
              loop_pass c ctx1 id fuel s s' r v' _ hr hcall, ← hmap]
            exact ih s' v' _

end Lemmas

/-- C5 (non-termination while not sealed): if every fetch succeeds with a status other
than `Sealed` (for instance `Expired`), then for every `N` the run with `N` loop tests has
made `N` full iterations (`N + 1` fetches), has neither returned nor panicked, and the run
with one more loop test extends it by a further sleep/marker/re-fetch cycle. -/
theorem waitForSeal_never_returns_unsealed {σ : Type} (c : Client σ) (ctx : Context)
    (id : Identifier) (s : σ)
    (hall : ∀ i, isPending (response c ctx id s i) = true) (N : Nat) :
    flowtxnhelper.WaitForSeal c ctx id N s =
        ⟨[Event.GetTransactionResult ctx id, waitingNotice id] ++ cycles ctx id N,
          stateAfter c ctx id s (N + 1), Outcome.running⟩ ∧
      (flowtxnhelper.WaitForSeal c ctx id (N + 1) s).trace =
        (flowtxnhelper.WaitForSeal c ctx id N s).trace ++ cycle ctx id ∧
      (flowtxnhelper.WaitForSeal c ctx id (N + 1) s).outcome = Outcome.running ∧
      fetches (flowtxnhelper.WaitForSeal c ctx id N s).trace = N + 1 := by
  have h0 := wait_running c ctx id N s (fun i _ => hall i)
  have h1 := wait_running c ctx id (N + 1) s (fun i _ => hall i)
  refine ⟨h0, ?_, ?_, ?_⟩
  · rw [h0, h1, cycles_succ_last, List.append_assoc]
  · rw [h1]
  · rw [h0]
    simp only [fetches_append, fetches_cycles]
    simp [fetches, waitingNotice]
    omega

/-- Witness for C5 on a client that always answers `Expired`: still polling after five
iterations. -/
theorem waitForSeal_never_returns_unsealed_witness :
    flowtxnhelper.WaitForSeal (always (ok TransactionStatus.Expired)) Background ⟨[7]⟩ 5 () =
        ⟨[Event.GetTransactionResult Background ⟨[7]⟩, waitingNotice ⟨[7]⟩] ++
            cycles Background ⟨[7]⟩ 5,
          stateAfter (always (ok TransactionStatus.Expired)) Background ⟨[7]⟩ () 6,
          Outcome.running⟩ ∧
      fetches (flowtxnhelper.WaitForSeal (always (ok TransactionStatus.Expired))
        Background ⟨[7]⟩ 5 ()).trace = 6 :=
  have h := waitForSeal_never_returns_unsealed (always (ok TransactionStatus.Expired))
    Background ⟨[7]⟩ ()
    (fun i => by rw [response_always]; rfl) 5
  ⟨h.1, h.2.2.2⟩

section Lemmas

variable {σ : Type}

theorem stateAfter_one (c : Client σ) (ctx : Context) (id : Identifier) (s s' : σ)
    (x : Call TransactionResult) (hc : c.GetTransactionResult s ctx id = (x, s')) :
    stateAfter c ctx id s 1 = s' := by
  simp [stateAfter, hc]

theorem stateAfter_succ_first (c : Client σ) (ctx : Context) (id : Identifier) (s s' : σ)
    (x : Call TransactionResult) (n : Nat)
    (hc : c.GetTransactionResult s ctx id = (x, s')) :
    stateAfter c ctx id s (n + 1) = stateAfter c ctx id s' n := by
  simp [stateAfter, hc]

/-- The state the loop ends in is the one reached by handing `(ctx, id)` to the client once
for every fetch the loop adds to the trace. -/
theorem loop_state (c : Client σ) (ctx : Context) (id : Identifier) (fuel : Nat) :
    ∀ (s : σ) (v : Option TransactionResult) (tr : List Event),
      ∃ n, (flowtxnhelper.WaitForSeal.loop c ctx id fuel s v tr).state =
          stateAfter c ctx id s n ∧
        fetches (flowtxnhelper.WaitForSeal.loop c ctx id fuel s v tr).trace =
          fetches tr + n := by
  have hcyc : fetches (cycle ctx id) = 1 := rfl
  induction fuel with
  | zero =>
    intro s v tr
    exact ⟨0, by simp [flowtxnhelper.WaitForSeal.loop, stateAfter],
      by simp [flowtxnhelper.WaitForSeal.loop]⟩
  | succ fuel ih =>
    intro s v tr
    cases v with
    | none =>
      exact ⟨0, by simp [flowtxnhelper.WaitForSeal.loop, stateAfter],
        by simp [flowtxnhelper.WaitForSeal.loop]⟩
    | some r =>
      by_cases hr : r.Status = TransactionStatus.Sealed
      · refine ⟨0, ?_, ?_⟩
        · rw [loop_sealed c ctx id fuel s r tr hr]
          rfl
        · rw [loop_sealed c ctx id fuel s r tr hr]
          simp [fetches_append, fetches, completionNotice]
      · rcases hcall : c.GetTransactionResult s ctx id with ⟨x, s'⟩
        cases x with
        | panics p =>
          refine ⟨1, ?_, ?_⟩
          · rw [stateAfter_one c ctx id s s' _ hcall]
            simp [flowtxnhelper.WaitForSeal.loop, hr, hcall]
          · have e : (flowtxnhelper.WaitForSeal.loop c ctx id (fuel + 1) s (some r) tr).trace =
                tr ++ cycle ctx id := by
              simp [flowtxnhelper.WaitForSeal.loop, hr, hcall, cycle]
            rw [e, fetches_append, hcyc]
        | returns v' err =>
          cases err with
          | some e =>
            rw [loop_fail c ctx id fuel s s' r v' e tr hr hcall]
            refine ⟨1, ?_, ?_⟩
            · rw [stateAfter_one c ctx id s s' _ hcall]
            · show fetches (tr ++ cycle ctx id) = fetches tr + 1
              rw [fetches_append, hcyc]
          | none =>
            obtain ⟨n, h1, h2⟩ := ih s' v' (tr ++ cycle ctx id)
            rw [loop_pass c ctx id fuel s s' r v' tr hr hcall]
            refine ⟨n + 1, ?_, ?_⟩
            · rw [h1, stateAfter_succ_first c ctx id s s' _ n hcall]
            · rw [h2, fetches_append, hcyc]
              omega

/-- The state a run of `WaitForSeal` ends in is the one reached by handing `(ctx, id)` to
the client once for every fetch in its trace. -/
theorem wait_state (c : Client σ) (ctx : Context) (id : Identifier) (fuel : Nat) (s : σ) :
    (flowtxnhelper.WaitForSeal c ctx id fuel s).state =
      stateAfter c ctx id s (fetches (flowtxnhelper.WaitForSeal c ctx id fuel s).trace) := by
  rcases hcall : c.GetTransactionResult s ctx id with ⟨x, s'⟩
  cases x with
  | panics p =>
    have e : flowtxnhelper.WaitForSeal c ctx id fuel s =
        ⟨[Event.GetTransactionResult ctx id], s', Outcome.panicked p⟩ := by
      simp [flowtxnhelper.WaitForSeal, hcall]
    rw [e]
    exact (stateAfter_one c ctx id s s' _ hcall).symm
  | returns v err =>
    cases err with
    | some e =>
      rw [wait_fail c ctx id fuel s s' v e hcall]
      exact (stateAfter_one c ctx id s s' _ hcall).symm
    | none =>
      rw [wait_enter c ctx id fuel s s' v hcall]
      obtain ⟨n, h1, h2⟩ := loop_state c ctx id fuel s' v
        [Event.GetTransactionResult ctx id, waitingNotice id]
      have e1 : fetches [Event.GetTransactionResult ctx id, waitingNotice id] = 1 := rfl
      rw [h1, h2, e1, Nat.add_comm, stateAfter_succ_first c ctx id s s' _ n hcall]

/-- After `n` calls with `(ctx, id)` the log of a recording client has grown by `n` copies
of `(ctx, id)`. -/
theorem stateAfter_recording (c : Client σ) (ctx : Context) (id : Identifier) (n : Nat) :
    ∀ (s : σ) (log : List (Context × Identifier)),
      (stateAfter (recording c) ctx id (s, log) n).2 =
        log ++ List.replicate n (ctx, id) := by
  induction n with
  | zero => intro s log; simp [stateAfter]
  | succ n ih =>
    intro s log
    have e : stateAfter (recording c) ctx id (s, log) (n + 1) =
        stateAfter (recording c) ctx id
          ((c.GetTransactionResult s ctx id).2, log ++ [(ctx, id)]) n := rfl
    rw [e, ih, List.replicate_succ, List.append_assoc]
    rfl

end Lemmas

/-- C6 (identifier never altered): in every run of `WaitForSeal(ctx, c, id)`, whatever the
client answers and however long the run, every fetch call is made with `id` (and `ctx`):
the identifiers noted in the trace are `id` at every call, there is at least the initial
call, the client ends in the state reached by receiving `(ctx, id)` once per fetch, and a
client that logs the arguments it actually receives has logged `(ctx, id)` once per fetch
and nothing else. -/
theorem waitForSeal_identifier_unchanged {σ : Type} (c : Client σ) (ctx : Context)
    (id : Identifier) (fuel : Nat) (s : σ) (log : List (Context × Identifier)) :
    fetchedIds (flowtxnhelper.WaitForSeal c ctx id fuel s).trace =
        List.replicate (fetches (flowtxnhelper.WaitForSeal c ctx id fuel s).trace) id ∧
      1 ≤ fetches (flowtxnhelper.WaitForSeal c ctx id fuel s).trace ∧
      (flowtxnhelper.WaitForSeal c ctx id fuel s).state =
        stateAfter c ctx id s (fetches (flowtxnhelper.WaitForSeal c ctx id fuel s).trace) ∧
      (flowtxnhelper.WaitForSeal (recording c) ctx id fuel (s, log)).state.2 =
        log ++ List.replicate
          (fetches (flowtxnhelper.WaitForSeal (recording c) ctx id fuel (s, log)).trace)
          (ctx, id) := by
  have hlabels : fetchedIds (flowtxnhelper.WaitForSeal c ctx id fuel s).trace =
        List.replicate (fetches (flowtxnhelper.WaitForSeal c ctx id fuel s).trace) id ∧
      1 ≤ fetches (flowtxnhelper.WaitForSeal c ctx id fuel s).trace := by
    rcases wait_trace c ctx id fuel s with h | ⟨rest, h, hrest⟩
    · rw [h]
      exact ⟨rfl, Nat.le_refl 1⟩
    · obtain ⟨h1, _, _⟩ := loopEvents_facts ctx id rest hrest
      have e1 : fetches [Event.GetTransactionResult ctx id, waitingNotice id] = 1 := rfl
      have e2 : fetchedIds [Event.GetTransactionResult ctx id, waitingNotice id] = [id] := rfl
      rw [h, fetchedIds_append, fetches_append, h1, e1, e2, Nat.add_comm, List.replicate_succ]
      exact ⟨rfl, Nat.le_add_left 1 _⟩
  refine ⟨hlabels.1, hlabels.2, wait_state c ctx id fuel s, ?_⟩
  rw [wait_state (recording c) ctx id fuel (s, log), stateAfter_recording]

/-- C7 as stated fails: on a first fetch that is already `Sealed` the run returns that
result, yet its trace contains the waiting notice (exactly one `log.Printf`). -/
theorem waitingNotice_emitted_when_already_sealed :
    response (stub [ok TransactionStatus.Sealed]) Background ⟨[7]⟩ 0 0 =
        ok TransactionStatus.Sealed ∧
      (flowtxnhelper.WaitForSeal (stub [ok TransactionStatus.Sealed])
        Background ⟨[7]⟩ 1 0).outcome =
        Outcome.returned (some ⟨TransactionStatus.Sealed, none⟩) ∧
      (flowtxnhelper.WaitForSeal (stub [ok TransactionStatus.Sealed])
        Background ⟨[7]⟩ 1 0).trace =
        [Event.GetTransactionResult Background ⟨[7]⟩,
          Event.logPrintf "Waiting for transaction %s to be sealed...\n" ⟨[7]⟩,
          Event.fmtPrintln, Event.fmtPrintf "Transaction %s sealed\n" ⟨[7]⟩] ∧
      notices (flowtxnhelper.WaitForSeal (stub [ok TransactionStatus.Sealed])
        Background ⟨[7]⟩ 1 0).trace = 1 :=
  ⟨rfl, rfl, rfl, rfl⟩

/-- C7 amended: whenever the first fetch succeeds, whatever its status (`Sealed`
included), the waiting notice is emitted exactly once, right after the first fetch and
before every sleep, progress marker, re-fetch and closing output of the run. -/
theorem waitForSeal_waiting_notice_once {σ : Type} (c : Client σ) (ctx : Context)
    (id : Identifier) (s : σ) (r : TransactionResult)
    (hfirst : response c ctx id s 0 = Call.returns (some r) none) (fuel : Nat) :
    ∃ rest, (flowtxnhelper.WaitForSeal c ctx id fuel s).trace =
        [Event.GetTransactionResult ctx id, waitingNotice id] ++ rest ∧
      notices rest = 0 ∧
      notices (flowtxnhelper.WaitForSeal c ctx id fuel s).trace = 1 := by
  rw [wait_enter c ctx id fuel s _ (some r) (call_eq_of_response_zero c ctx id s _ hfirst)]
  obtain ⟨rest, h, hrest⟩ := loop_trace c ctx id fuel (stateAfter c ctx id s 1) (some r)
    [Event.GetTransactionResult ctx id, waitingNotice id]
  obtain ⟨_, _, h3⟩ := loopEvents_facts ctx id rest hrest
  refine ⟨rest, h, h3, ?_⟩
  rw [h, notices_append, h3]
  rfl

/-- Witness for C7 amended, on a first fetch that is `Sealed` and one that is `Pending`. -/
theorem waitForSeal_waiting_notice_once_witness :
    (∃ rest, (flowtxnhelper.WaitForSeal (stub [ok TransactionStatus.Sealed])
          Background ⟨[7]⟩ 1 0).trace =
        [Event.GetTransactionResult Background ⟨[7]⟩, waitingNotice ⟨[7]⟩] ++ rest ∧
      notices rest = 0 ∧
      notices (flowtxnhelper.WaitForSeal (stub [ok TransactionStatus.Sealed])
        Background ⟨[7]⟩ 1 0).trace = 1) ∧
    (∃ rest, (flowtxnhelper.WaitForSeal
          (stub [ok TransactionStatus.Pending, ok TransactionStatus.Sealed])
          Background ⟨[7]⟩ 2 0).trace =
        [Event.GetTransactionResult Background ⟨[7]⟩, waitingNotice ⟨[7]⟩] ++ rest ∧
      notices rest = 0 ∧
      notices (flowtxnhelper.WaitForSeal
        (stub [ok TransactionStatus.Pending, ok TransactionStatus.Sealed])
        Background ⟨[7]⟩ 2 0).trace = 1) :=
  ⟨waitForSeal_waiting_notice_once (stub [ok TransactionStatus.Sealed]) Background ⟨[7]⟩ 0
      ⟨TransactionStatus.Sealed, none⟩ rfl 1,
    waitForSeal_waiting_notice_once
      (stub [ok TransactionStatus.Pending, ok TransactionStatus.Sealed]) Background ⟨[7]⟩ 0
      ⟨TransactionStatus.Pending, none⟩ rfl 2⟩

/-- C8 (no cancellation check): for a client whose answers do not depend on the context,
the runs of `WaitForSeal` under any two contexts (cancelled or not) have the same trace up
to the context argument of the fetch calls, the same final state and the same outcome at
every stage; and the context handed to each fetch is the one `WaitForSeal` received. -/
theorem waitForSeal_ignores_cancellation {σ : Type} (c : Client σ)
    (hind : ∀ s a b i, c.GetTransactionResult s a i = c.GetTransactionResult s b i)
    (ctx1 ctx2 : Context) (id : Identifier) (fuel : Nat) (s : σ) :
    (flowtxnhelper.WaitForSeal c ctx2 id fuel s).trace =
        (flowtxnhelper.WaitForSeal c ctx1 id fuel s).trace.map (withContext ctx2) ∧
      (flowtxnhelper.WaitForSeal c ctx2 id fuel s).state =
        (flowtxnhelper.WaitForSeal c ctx1 id fuel s).state ∧
      (flowtxnhelper.WaitForSeal c ctx2 id fuel s).outcome =
        (flowtxnhelper.WaitForSeal c ctx1 id fuel s).outcome ∧
      fetchedContexts (flowtxnhelper.WaitForSeal c ctx1 id fuel s).trace =
        List.replicate (fetches (flowtxnhelper.WaitForSeal c ctx1 id fuel s).trace) ctx1 := by
  have hmirror : (flowtxnhelper.WaitForSeal c ctx2 id fuel s).trace =
        (flowtxnhelper.WaitForSeal c ctx1 id fuel s).trace.map (withContext ctx2) ∧
      (flowtxnhelper.WaitForSeal c ctx2 id fuel s).state =
        (flowtxnhelper.WaitForSeal c ctx1 id fuel s).state ∧
      (flowtxnhelper.WaitForSeal c ctx2 id fuel s).outcome =
        (flowtxnhelper.WaitForSeal c ctx1 id fuel s).outcome := by
    rcases hcall : c.GetTransactionResult s ctx1 id with ⟨x, s'⟩
    have hcall2 : c.GetTransactionResult s ctx2 id = (x, s') := by
      rw [hind s ctx2 ctx1 id, hcall]
    cases x with
    | panics p => simp [flowtxnhelper.WaitForSeal, hcall, hcall2, withContext]
    | returns v err =>
      cases err with
      | some e =>
        rw [wait_fail c ctx2 id fuel s s' v e hcall2, wait_fail c ctx1 id fuel s s' v e hcall]
        simp [withContext]
      | none =>
        rw [wait_enter c ctx2 id fuel s s' v hcall2, wait_enter c ctx1 id fuel s s' v hcall]
        exact loop_context_irrelevant c id ctx1 ctx2 hind fuel s' v
          [Event.GetTransactionResult ctx1 id, waitingNotice id]
  have hctx : fetchedContexts (flowtxnhelper.WaitForSeal c ctx1 id fuel s).trace =
      List.replicate (fetches (flowtxnhelper.WaitForSeal c ctx1 id fuel s).trace) ctx1 := by
    rcases wait_trace c ctx1 id fuel s with h | ⟨rest, h, hrest⟩
    · rw [h]
      rfl
    · obtain ⟨_, h2, _⟩ := loopEvents_facts ctx1 id rest hrest
      have e1 : fetches [Event.GetTransactionResult ctx1 id, waitingNotice id] = 1 := rfl
      have e2 : fetchedContexts [Event.GetTransactionResult ctx1 id, waitingNotice id] =
          [ctx1] := rfl
      rw [h, fetchedContexts_append, fetches_append, h2, e1, e2, Nat.add_comm,
        List.replicate_succ]
      rfl
  exact ⟨hmirror.1, hmirror.2.1, hmirror.2.2, hctx⟩

/-- Witness for C8: a cancelled and a live context against the same scripted client. -/
theorem waitForSeal_ignores_cancellation_witness :
    (flowtxnhelper.WaitForSeal
        (stub [ok TransactionStatus.Pending, ok TransactionStatus.Sealed])
        ⟨2, false⟩ ⟨[7]⟩ 3 0).trace =
        (flowtxnhelper.WaitForSeal
          (stub [ok TransactionStatus.Pending, ok TransactionStatus.Sealed])
          ⟨1, true⟩ ⟨[7]⟩ 3 0).trace.map (withContext ⟨2, false⟩) ∧
      (flowtxnhelper.WaitForSeal
        (stub [ok TransactionStatus.Pending, ok TransactionStatus.Sealed])
        ⟨2, false⟩ ⟨[7]⟩ 3 0).outcome =
        (flowtxnhelper.WaitForSeal
          (stub [ok TransactionStatus.Pending, ok TransactionStatus.Sealed])
          ⟨1, true⟩ ⟨[7]⟩ 3 0).outcome :=
  have h := waitForSeal_ignores_cancellation
    (stub [ok TransactionStatus.Pending, ok TransactionStatus.Sealed])
    (fun _ _ _ _ => rfl) ⟨1, true⟩ ⟨2, false⟩ ⟨[7]⟩ 3 0
  ⟨h.1, h.2.2.1⟩

/-! ## Account resolution and client construction -/

section Lemmas

variable {σ : Type}

theorem main_handleError_eq (err : Option GoError) :
    main.HandleError err = flowtxnhelper.HandleError err := by
  cases err <;> rfl

theorem main_loop_eq (c : Client σ) (ctx : Context) (id : Identifier) (fuel : Nat) :
    ∀ (s : σ) (v : Option TransactionResult) (tr : List Event),
      main.WaitForSeal.loop c ctx id fuel s v tr =
        flowtxnhelper.WaitForSeal.loop c ctx id fuel s v tr := by
  induction fuel with
  | zero => intro s v tr; rfl
  | succ fuel ih =>
    intro s v tr
    cases v with
    | none => rfl
    | some r =>
      simp only [main.WaitForSeal.loop, flowtxnhelper.WaitForSeal.loop, main_handleError_eq, ih]

end Lemmas

/-- C4 (account resolution): `Account` panics with the decode error, before any query,
when the hex private key fails to decode; it panics whenever the queried account has an
empty key list; and when decoding, the account query and signer construction all succeed
it returns the parsed address, the account's key at index 0 and the signer built from the
decoded private key with that key's hash algorithm. -/
theorem account_resolution {σ : Type} (sdk : SDK σ) (flowClient : Client σ) (key : String)
    (address : String) (s : σ) :
    (∀ pk e, sdk.DecodePrivateKeyHex SignatureAlgorithm.ECDSA_P256 key = (pk, some e) →
        flowtxnhelper.Account sdk flowClient key address s =
          ⟨[], s, Outcome.panicked (PanicValue.error e)⟩) ∧
      (∀ acc err s',
        flowClient.GetAccount s Background (sdk.HexToAddress address) =
          (Call.returns (some acc) err, s') →
        acc.Keys = [] →
        ∃ p, (flowtxnhelper.Account sdk flowClient key address s).outcome =
          Outcome.panicked p) ∧
      (∀ pk acc k rest signer s',
        sdk.DecodePrivateKeyHex SignatureAlgorithm.ECDSA_P256 key = (pk, none) →
        flowClient.GetAccount s Background (sdk.HexToAddress address) =
          (Call.returns (some acc) none, s') →
        acc.Keys = some k :: rest →
        sdk.NewInMemorySigner pk k.HashAlgo = (signer, none) →
        flowtxnhelper.Account sdk flowClient key address s =
          ⟨[Event.GetAccount Background (sdk.HexToAddress address)], s',
            Outcome.returned (sdk.HexToAddress address, some k, signer)⟩) := by
  refine ⟨?_, ?_, ?_⟩
  · intro pk e hd
    simp [flowtxnhelper.Account, hd, flowtxnhelper.HandleError]
  · intro acc err s' hq hk
    rcases hd : sdk.DecodePrivateKeyHex SignatureAlgorithm.ECDSA_P256 key with ⟨pk, derr⟩
    cases derr with
    | some e =>
      exact ⟨PanicValue.error e, by simp [flowtxnhelper.Account, hd, flowtxnhelper.HandleError]⟩
    | none =>
      cases err with
      | some e =>
        exact ⟨PanicValue.error e,
          by simp [flowtxnhelper.Account, hd, hq, flowtxnhelper.HandleError]⟩
      | none =>
        exact ⟨PanicValue.indexOutOfRange 0 0,
          by simp [flowtxnhelper.Account, hd, hq, hk, flowtxnhelper.HandleError]⟩
  · intro pk acc k rest signer s' hd hq hk hs
    simp [flowtxnhelper.Account, hd, hq, hk, hs, flowtxnhelper.HandleError]

/-- Witness for C4: an empty key string fails to decode, address `"ab"` resolves to an
account without keys, and key `"k"` with address `"a"` resolves to the demo account. -/
theorem account_resolution_witness :
    flowtxnhelper.Account demoSDK demoClient "" "a" 0 =
        ⟨[], 0, Outcome.panicked (PanicValue.error ⟨"invalid key"⟩)⟩ ∧
      (∃ p, (flowtxnhelper.Account demoSDK demoClient "k" "ab" 0).outcome =
        Outcome.panicked p) ∧
      flowtxnhelper.Account demoSDK demoClient "k" "a" 0 =
        ⟨[Event.GetAccount Background (demoSDK.HexToAddress "a")], 1,
          Outcome.returned (demoSDK.HexToAddress "a",
            some ⟨0, HashAlgorithm.SHA3_256, 1000⟩, ⟨2⟩)⟩ :=
  ⟨(account_resolution demoSDK demoClient "" "a" 0).1 ⟨[]⟩ ⟨"invalid key"⟩ rfl,
    (account_resolution demoSDK demoClient "k" "ab" 0).2.1 ⟨⟨[2]⟩, []⟩ none 1 rfl rfl,
    (account_resolution demoSDK demoClient "k" "a" 0).2.2 ⟨[1]⟩ demoAccount
      ⟨0, HashAlgorithm.SHA3_256, 1000⟩ [] ⟨2⟩ 1 rfl rfl rfl rfl⟩

/-- C9 (duplicated logic): at every stage of every run, `WaitForSeal` of `main.go` and
`WaitForSeal` of `flowtxnhelper.go` yield the same trace, state and outcome; and `Account`
of `main.go` under configuration `conf` equals `Account` of `flowtxnhelper.go` applied to
`conf.Accounts.Service.Key` and `conf.Accounts.Service.Address`. -/
theorem duplicated_logic_equivalent {σ : Type} (sdk : SDK σ) (conf : main.config)
    (c : Client σ) (ctx : Context) (id : Identifier) (fuel : Nat) (s : σ) :
    main.WaitForSeal c ctx id fuel s = flowtxnhelper.WaitForSeal c ctx id fuel s ∧
      main.Account sdk conf c s =
        flowtxnhelper.Account sdk c conf.Accounts.Service.Key conf.Accounts.Service.Address
          s := by
  refine ⟨?_, ?_⟩
  · simp only [main.WaitForSeal, flowtxnhelper.WaitForSeal, main_handleError_eq, main_loop_eq]
  · simp only [main.Account, flowtxnhelper.Account, main_handleError_eq]

/-- C10 (no short-circuit on a construction error): whatever pair `(c, err)` the client
constructor yields, `NewTestnetClient` and `NewMainnetClient` run `Account` on `c`; they
return exactly when `Account` returns, then with `c`, the three results of `Account` and
`err` unchanged in last position; and they panic with the panic of `Account` otherwise, so
that `err` is then never reported. -/
theorem newClient_no_short_circuit {σ : Type} (sdk : SDK σ) (key : String)
    (address : String) (s s1 : σ) (c : GrpcClient) (err : Option GoError) :
    (sdk.NewClient Host.TestnetHost s = ((c, err), s1) →
        (flowtxnhelper.NewTestnetClient sdk key address s).trace =
          (flowtxnhelper.Account sdk (sdk.asClient c) key address s1).trace ∧
        (∀ addr k sg,
          (flowtxnhelper.Account sdk (sdk.asClient c) key address s1).outcome =
            Outcome.returned (addr, k, sg) →
          (flowtxnhelper.NewTestnetClient sdk key address s).outcome =
            Outcome.returned (c, addr, k, sg, err)) ∧
        (∀ p,
          (flowtxnhelper.Account sdk (sdk.asClient c) key address s1).outcome =
            Outcome.panicked p →
          (flowtxnhelper.NewTestnetClient sdk key address s).outcome = Outcome.panicked p) ∧
        (∀ v, (flowtxnhelper.NewTestnetClient sdk key address s).outcome =
            Outcome.returned v →
          ∃ addr k sg,
            (flowtxnhelper.Account sdk (sdk.asClient c) key address s1).outcome =
              Outcome.returned (addr, k, sg) ∧ v = (c, addr, k, sg, err))) ∧
      (sdk.NewClient Host.MainnetHost s = ((c, err), s1) →
        (flowtxnhelper.NewMainnetClient sdk key address s).trace =
          (flowtxnhelper.Account sdk (sdk.asClient c) key address s1).trace ∧
        (∀ addr k sg,
          (flowtxnhelper.Account sdk (sdk.asClient c) key address s1).outcome =
            Outcome.returned (addr, k, sg) →
          (flowtxnhelper.NewMainnetClient sdk key address s).outcome =
            Outcome.returned (c, addr, k, sg, err)) ∧
        (∀ p,
          (flowtxnhelper.Account sdk (sdk.asClient c) key address s1).outcome =
            Outcome.panicked p →
          (flowtxnhelper.NewMainnetClient sdk key address s).outcome = Outcome.panicked p) ∧
        (∀ v, (flowtxnhelper.NewMainnetClient sdk key address s).outcome =
            Outcome.returned v →
          ∃ addr k sg,
            (flowtxnhelper.Account sdk (sdk.asClient c) key address s1).outcome =
              Outcome.returned (addr, k, sg) ∧ v = (c, addr, k, sg, err))) := by
  refine ⟨?_, ?_⟩
  · intro h
    simp only [flowtxnhelper.NewTestnetClient, flowtxnhelper.NewTestnetFlowGRPCClient, h]
    rcases flowtxnhelper.Account sdk (sdk.asClient c) key address s1 with ⟨tr, s2, o⟩
    cases o with
    | returned v =>
      obtain ⟨addr, k, sg⟩ := v
      refine ⟨rfl, ?_, ?_, ?_⟩
      · intro addr' k' sg' he
        simp at he
        obtain ⟨rfl, rfl, rfl⟩ := he
        rfl
      · intro p he
        simp at he
      · intro v hv
        simp at hv
        exact ⟨addr, k, sg, rfl, hv.symm⟩
    | panicked p =>
      refine ⟨rfl, ?_, ?_, ?_⟩
      · intro addr' k' sg' he
        simp at he
      · intro p' he
        simpa using he
      · intro v hv
        simp at hv
    | running =>
      refine ⟨rfl, ?_, ?_, ?_⟩
      · intro addr' k' sg' he
        simp at he
      · intro p' he
        simp at he
      · intro v hv
        simp at hv
  · intro h
    simp only [flowtxnhelper.NewMainnetClient, flowtxnhelper.NewMainnetFlowGRPCClient, h]
    rcases flowtxnhelper.Account sdk (sdk.asClient c) key address s1 with ⟨tr, s2, o⟩
    cases o with
    | returned v =>
      obtain ⟨addr, k, sg⟩ := v
      refine ⟨rfl, ?_, ?_, ?_⟩
      · intro addr' k' sg' he
        simp at he
        obtain ⟨rfl, rfl, rfl⟩ := he
        rfl
      · intro p he
        simp at he
      · intro v hv
        simp at hv
        exact ⟨addr, k, sg, rfl, hv.symm⟩
    | panicked p =>
      refine ⟨rfl, ?_, ?_, ?_⟩
      · intro addr' k' sg' he
        simp at he
      · intro p' he
        simpa using he
      · intro v hv
        simp at hv
    | running =>
      refine ⟨rfl, ?_, ?_, ?_⟩
      · intro addr' k' sg' he
        simp at he
      · intro p' he
        simp at he
      · intro v hv
        simp at hv

/-- Witness for C10: the testnet dial fails, account resolution on the client it handed
back succeeds, and the dial error comes back as the last result; with an undecodable key
account resolution panics and the dial error is lost. -/
theorem newClient_no_short_circuit_witness :
    (flowtxnhelper.NewTestnetClient demoSDK "k" "a" 0).outcome =
        Outcome.returned (⟨some 7⟩, demoSDK.HexToAddress "a",
          some ⟨0, HashAlgorithm.SHA3_256, 1000⟩, ⟨2⟩, some ⟨"dial failed"⟩) ∧
      (flowtxnhelper.NewTestnetClient demoSDK "" "a" 0).outcome =
        Outcome.panicked (PanicValue.error ⟨"invalid key"⟩) ∧
      (flowtxnhelper.NewMainnetClient demoSDK "k" "a" 0).outcome =
        Outcome.returned (⟨some 8⟩, demoSDK.HexToAddress "a",
          some ⟨0, HashAlgorithm.SHA3_256, 1000⟩, ⟨2⟩, none) :=
  ⟨((newClient_no_short_circuit demoSDK "k" "a" 0 0 ⟨some 7⟩ (some ⟨"dial failed"⟩)).1
      rfl).2.1 _ _ _ rfl,
    ((newClient_no_short_circuit demoSDK "" "a" 0 0 ⟨some 7⟩ (some ⟨"dial failed"⟩)).1
      rfl).2.2.1 _ rfl,
    ((newClient_no_short_circuit demoSDK "k" "a" 0 0 ⟨some 8⟩ none).2 rfl).2.1 _ _ _ rfl⟩
